import Mathlib

/-!
Shallow embedding of the tabular data model and CSV export/import pipeline of
`src/main.py` (Cinteza CSV Exporter), together with theorems settling the
specification claims about it.

Strings are modelled as lists of characters (`Str`).  Python's `str.strip`,
`str.replace`, `str.isdigit` (ASCII fragment), `int`/`float` parsing (finite
decimal literals) and pandas' column-wise operations are modelled explicitly
below, each next to the source line it embeds.
-/

namespace CsvExporter

/-- A Python string, modelled as its list of characters. -/
abbrev Str := List Char

/-- Python's whitespace set, as used by `str.strip()` with no argument
(code points whose `str.isspace()` is true). -/
def pyIsSpace (c : Char) : Bool :=
  decide (c.toNat ∈ ([0x09, 0x0a, 0x0b, 0x0c, 0x0d, 0x1c, 0x1d, 0x1e, 0x1f, 0x20,
    0x85, 0xa0, 0x1680,
    0x2000, 0x2001, 0x2002, 0x2003, 0x2004, 0x2005, 0x2006, 0x2007, 0x2008,
    0x2009, 0x200a, 0x2028, 0x2029, 0x202f, 0x205f, 0x3000] : List Nat))

/-- Python's `str.strip()`: drop whitespace from both ends. -/
def pyStrip (l : Str) : Str :=
  ((l.dropWhile pyIsSpace).reverse.dropWhile pyIsSpace).reverse

/-- The character pipeline of `money_to_csv` after the emptiness check
(src/main.py lines 34-36): remove spaces, remove no-break spaces, send `.` to
the placeholder `#`, send `,` to `.`, then delete every `#`. -/
def money_core (t : Str) : Str :=
  ((((t.filter (fun c => !(c == ' '))).filter
      (fun c => !(c == '\u00A0'))).map
      (fun c => if c == '.' then '#' else c)).map
      (fun c => if c == ',' then '.' else c)).filter (fun c => !(c == '#'))

/-- `money_to_csv` from src/main.py lines 30-36: strip, return `""` for an
empty result, otherwise run the separator-rewriting pipeline. -/
def money_to_csv (s : Str) : Str :=
  if pyStrip s = [] then [] else money_core (pyStrip s)

/-! ## Record Store -/

/-- The canonical, ordered 14-column schema (src/main.py lines 20-26). -/
def COLUMNS : List String :=
  ["PO_No.", "Amount", "CCY/RON", "Payer Account IBAN",
   "Payee Name", "Payee address 1", "Payee address 2",
   "Payee CUI", "Payee Account IBAN",
   "Details 1", "Details 2", "Details 3",
   "Processing date", "Processing Method"]

/-- One record: its 14 cells in canonical schema order. -/
abbrev Rec := List Str

/-- A freshly inserted blank record, `[""] * columnCount` in the source. -/
def blankRec : Rec := List.replicate COLUMNS.length []

/-- `PandasModel.insertRows` (src/main.py lines 79-87): a blank block is
concatenated between the first `position` rows and the rest. -/
def insertRows (rows : List Rec) (position n : Nat) : List Rec :=
  rows.take position ++ List.replicate n blankRec ++ rows.drop position

/-- `PandasModel.removeRows` (src/main.py lines 89-96): reject an
out-of-bounds `position`, otherwise drop the index slice
`position : position + count` (clamped at the end, as in pandas) and
re-index contiguously. -/
def removeRows (rows : List Rec) (position : Int) (count : Nat) :
    List Rec × Bool :=
  if position < 0 ∨ (rows.length : Int) ≤ position then (rows, false)
  else (rows.take position.toNat ++ rows.drop (position.toNat + count), true)

/-- Overwrite cell `j` of record `i` (pandas `df.at[i, col] = v`). -/
def setCell (rows : List Rec) (i j : Nat) (v : Str) : List Rec :=
  rows.set i ((rows.getD i blankRec).set j v)

/-- Python's `str.isdigit`, restricted to the ASCII digits (the non-ASCII
digit code points Python also accepts are out of the model's scope). -/
def isdigitStr (l : Str) : Bool := !l.isEmpty && l.all Char.isDigit

/-- Value of an ASCII digit string, as computed by Python's `int`. -/
def digitsVal (l : Str) : Nat := l.foldl (fun n c => 10 * n + (c.toNat - 48)) 0

/-- The decimal rendering of a Python int stored in a cell. -/
def natToStr (n : Nat) : Str := (toString n).toList

/-- `CompanyTab.add_row` (src/main.py lines 184-197) for an explicit
`position`: insert one blank record, then populate its `PO_No.` cell (column
0): for `position > 0`, with `int(str(prev))` when the predecessor's `PO_No.`
is a digit string and with `position + 1` otherwise; for `position = 0`,
with `1`.  The stored int is modelled by its decimal string. -/
def add_row (rows : List Rec) (position : Nat) : List Rec :=
  let rows1 := insertRows rows position 1
  let prev : Str := (rows1.getD (position - 1) blankRec).getD 0 []
  let n : Str :=
    if position > 0 then
      if isdigitStr prev then natToStr (digitsVal prev) else natToStr (position + 1)
    else natToStr 1
  setCell rows1 position 0 n

/-! ## Import pipeline -/

/-- A source dataframe as read by `pd.read_csv` / `pd.read_excel`: column
name to raw cells, where `none` is a missing value (NaN). -/
abbrev Frame := List (String × List (Option String))

/-- One result column of `CompanyTab.load_data`'s schema coercion: the
source column with missing cells filled by `""`, or a synthesized empty
column. -/
def importCol (src : Frame) (nrows : Nat) (c : String) : List String :=
  match src.lookup c with
  | some vs => vs.map (fun v => v.getD "")
  | none => List.replicate nrows ""

/-- The schema coercion of `CompanyTab.load_data` (src/main.py lines
213-216): every schema column absent from the source is added with empty
text, `df[COLUMNS]` selects the schema columns in canonical order, and
`fillna("")` turns missing cells into empty text.  `nrows` is the source's
row count. -/
def load_data (src : Frame) (nrows : Nat) : List (String × List String) :=
  COLUMNS.map fun c => (c, importCol src nrows c)

/-! ## Export pipeline -/

/-- The per-cell scrub of `export_csv` (src/main.py line 238):
`str(x).replace("\r", " ").replace("\n", " ").strip()`. -/
def cleanCell (l : Str) : Str :=
  pyStrip ((l.map fun c => if c == '\r' then ' ' else c).map
    fun c => if c == '\n' then ' ' else c)

/-- Amount normalization of `export_csv` (src/main.py line 234): the
`Amount` column (index 1 of the schema) is mapped through `money_to_csv`. -/
def normalizeAmount (r : Rec) : Rec := r.set 1 (money_to_csv (r.getD 1 []))

/-- The dataframe actually serialized by `export_csv` (src/main.py lines
230-238): a copy of the store with the amount normalized and every cell
scrubbed of CR/LF and trimmed. -/
def export_normalize (rows : List Rec) : List Rec :=
  (rows.map normalizeAmount).map fun r => r.map cleanCell

/-- ASCII alphanumeric, the character class `[A-Z0-9]` under `re.IGNORECASE`
(src/main.py line 28). -/
def isAlnumAscii (c : Char) : Bool :=
  (decide (65 ≤ c.toNat) && decide (c.toNat ≤ 90)) ||
  (decide (97 ≤ c.toNat) && decide (c.toNat ≤ 122)) ||
  (decide (48 ≤ c.toNat) && decide (c.toNat ≤ 57))

/-- `IBAN_REGEX.match` on a stripped value: the anchored regular expression
`^RO[A-Z0-9]{2,}$` with `re.IGNORECASE` (src/main.py line 28), i.e. `R`/`r`,
then `O`/`o`, then at least two alphanumerics up to the end.  (Both call
sites strip first, so the trailing-newline licence of `$` never fires.) -/
def IBAN_REGEX (l : Str) : Bool :=
  match l with
  | c1 :: c2 :: rest =>
      (c1 == 'R' || c1 == 'r') && (c2 == 'O' || c2 == 'o') &&
      decide (2 ≤ rest.length) && rest.all isAlnumAscii
  | _ => false

/-- The spec's wording of the IBAN-shape check: the value starts with the
two letters "RO" (case-insensitive) followed by at least two alphanumeric
characters. -/
def specIbanShape (l : Str) : Prop :=
  ∃ c1 c2 rest, l = c1 :: c2 :: rest ∧ (c1 = 'R' ∨ c1 = 'r') ∧
    (c2 = 'O' ∨ c2 = 'o') ∧ 2 ≤ rest.length ∧ ∀ c ∈ rest, isAlnumAscii c = true

/-- The warning scan of one IBAN column (src/main.py lines 242-245):
enumerate the rows from index `i`, and record `(row index + 1, column name)`
for every value that is non-empty after stripping and fails the regex. -/
def badFrom (i : Nat) (colName : String) (colIdx : Nat) : List Rec → List (Nat × String)
  | [] => []
  | r :: rs =>
      (if pyStrip (r.getD colIdx []) ≠ [] ∧ IBAN_REGEX (pyStrip (r.getD colIdx [])) = false
       then [(i + 1, colName)] else []) ++ badFrom (i + 1) colName colIdx rs

/-- The full warning list of `export_csv` (src/main.py lines 241-245): the
payer column (schema index 3), then the payee column (schema index 8). -/
def collect_bad (rows : List Rec) : List (Nat × String) :=
  badFrom 0 "Payer Account IBAN" 3 rows ++ badFrom 0 "Payee Account IBAN" 8 rows

/-- One CSV field under pandas' minimal quoting: quoted, with inner quotes
doubled, exactly when it holds a delimiter, a quote or a line break. -/
def csvField (f : Str) : Str :=
  if f.any (fun c => c == ',' || c == '"' || c == '\r' || c == '\n')
  then '"' :: f.foldr (fun c acc => if c == '"' then '"' :: '"' :: acc else c :: acc) ['"']
  else f

/-- One CSV line: the quoted fields joined with commas. -/
def csvLine (r : Rec) : Str := List.intercalate [','] (r.map csvField)

/-- The byte content written by `df.to_csv` (src/main.py lines 249-255):
optional BOM (`utf-8-sig`), optional header line, one line per record, each
terminated by the chosen line ending. -/
def csvContent (rows : List Rec) (header : Bool) (eol : Str) (bom : Bool) : Str :=
  (if bom then ['\uFEFF'] else []) ++
  (if header then csvLine (COLUMNS.map String.toList) ++ eol else []) ++
  (rows.map fun r => csvLine r ++ eol).flatten

/-- Whether `df.to_csv` on the temporary file succeeds or raises. -/
inductive WriteOutcome
  | ok
  | err

/-- The two files `export_csv` touches: the destination `path` and the
temporary sibling `path + ".tmp"`; `none` means the file does not exist. -/
structure FS where
  dest : Option Str
  tmpFile : Option Str

/-- The write/replace tail of `export_csv` (src/main.py lines 253-261):
write the temp file, remove the old destination when present, rename the
temp file into place; any exception is caught, reported, and the function
returns.  `leftoverTmp` is whatever the failed write left in the temp file. -/
def export_write (fs : FS) (content : Str) (outcome : WriteOutcome)
    (leftoverTmp : Option Str) : FS × Bool :=
  match outcome with
  | .err => ({ fs with tmpFile := leftoverTmp }, false)
  | .ok =>
      let fs1 : FS := { fs with tmpFile := some content }
      let fs2 : FS := if fs1.dest.isSome then { fs1 with dest := none } else fs1
      ({ fs2 with dest := some content, tmpFile := none }, true)

/-- `CompanyTab.export_csv` (src/main.py lines 225-263) once a path is
chosen: normalize a copy of the store, collect the IBAN warnings (shown but
never blocking), and write the serialized CSV.  Returns the file-system
state, the success flag, and the warnings. -/
def export_csv (fs : FS) (rows : List Rec) (header : Bool) (eol : Str)
    (bom : Bool) (outcome : WriteOutcome) (leftoverTmp : Option Str) :
    FS × Bool × List (Nat × String) :=
  let df := export_normalize rows
  let warnings := collect_bad df
  let res := export_write fs (csvContent df header eol bom) outcome leftoverTmp
  (res.1, res.2, warnings)

/-! ## Running total -/

/-- The digits of an exponent suffix `e`/`E` (sign, digits); `some 0` for no
suffix, `none` when the remainder is not a well-formed exponent. -/
def parseExpPart (r : Str) : Option Int :=
  match r with
  | [] => some 0
  | e :: rest =>
    if e == 'e' || e == 'E' then
      let sr : Int × Str :=
        match rest with
        | '-' :: t => (-1, t)
        | '+' :: t => (1, t)
        | _ => (1, rest)
      let ds := sr.2.takeWhile Char.isDigit
      let rest2 := sr.2.dropWhile Char.isDigit
      if ds = [] ∨ rest2 ≠ [] then none else some (sr.1 * (digitsVal ds : Int))
    else none

/-- The rational value of a finite decimal literal: `sign` times the digit
string read as `mantissa` with `fracLen` of its digits after the dot, scaled
by `10 ^ exp`. -/
def decimalValue (sign : Int) (mantissa fracLen : Nat) (exp : Int) : ℚ :=
  if 0 ≤ exp then mkRat (sign * mantissa * 10 ^ exp.toNat) (10 ^ fracLen)
  else mkRat (sign * mantissa) (10 ^ (fracLen + (-exp).toNat))

/-- Python's `float(str)` on finite decimal literals, valued in ℚ: strip,
optional sign, digits with an optional dot, optional exponent.  The `inf`,
`nan`, underscore and non-ASCII-digit forms Python also accepts are out of
the model's scope; IEEE rounding is idealized away, which is exact for the
amounts the claims evaluate. -/
def pyFloat (s : Str) : Option ℚ :=
  let t := pyStrip s
  let st : Int × Str :=
    match t with
    | '-' :: r => (-1, r)
    | '+' :: r => (1, r)
    | _ => (1, t)
  let ip := st.2.takeWhile Char.isDigit
  let r1 := st.2.dropWhile Char.isDigit
  match r1 with
  | '.' :: r2 =>
      let fp := r2.takeWhile Char.isDigit
      let r3 := r2.dropWhile Char.isDigit
      if ip = [] ∧ fp = [] then none
      else
        match parseExpPart r3 with
        | none => none
        | some e =>
            some (decimalValue st.1 (digitsVal ip * 10 ^ fp.length + digitsVal fp)
              fp.length e)
  | _ =>
      if ip = [] then none
      else
        match parseExpPart r1 with
        | none => none
        | some e => some (decimalValue st.1 (digitsVal ip) 0 e)

/-- One iteration of the total loop (src/main.py lines 268-273): an amount
that is empty after stripping is skipped, otherwise
`float(money_to_csv(x))` is added, with a failed parse contributing
nothing. -/
def amountTerm (x : Str) : ℚ :=
  if pyStrip x = [] then 0
  else
    match pyFloat (money_to_csv x) with
    | some q => q
    | none => 0

/-- `CompanyTab.update_total` (src/main.py lines 265-276): fold the amount
column, accumulating from `0.0`. -/
def update_total (amounts : List Str) : ℚ :=
  amounts.foldl (fun s x => s + amountTerm x) 0

/-! ## Helper lemmas -/

theorem dropWhile_eq_self_of_all {p : Char → Bool} {l : Str}
    (h : ∀ c ∈ l, p c = false) : l.dropWhile p = l := by
  cases l with
  | nil => rfl
  | cons a t =>
    rw [List.dropWhile_cons, h a (List.mem_cons_self a t)]
    simp

theorem pyStrip_eq_self_of_all {l : Str} (h : ∀ c ∈ l, pyIsSpace c = false) :
    pyStrip l = l := by
  unfold pyStrip
  rw [dropWhile_eq_self_of_all h,
    dropWhile_eq_self_of_all (fun c hc => h c (List.mem_reverse.mp hc))]
  exact List.reverse_reverse l

theorem filter_eq_self_of_all {p : Char → Bool} :
    ∀ {l : Str}, (∀ c ∈ l, p c = true) → l.filter p = l := by
  intro l
  induction l with
  | nil => intro _; rfl
  | cons a t ih =>
    intro h
    rw [List.filter_cons, if_pos (h a (List.mem_cons_self a t)),
      ih (fun c hc => h c (List.mem_cons_of_mem a hc))]

theorem map_eq_self_of_all {f : Char → Char} :
    ∀ {l : Str}, (∀ c ∈ l, f c = c) → l.map f = l := by
  intro l
  induction l with
  | nil => intro _; rfl
  | cons a t ih =>
    intro h
    rw [List.map_cons, h a (List.mem_cons_self a t),
      ih (fun c hc => h c (List.mem_cons_of_mem a hc))]

theorem mem_of_mem_dropWhile {p : Char → Bool} {c : Char} :
    ∀ {l : Str}, c ∈ l.dropWhile p → c ∈ l := by
  intro l
  induction l with
  | nil => intro h; exact h
  | cons a t ih =>
    intro h
    rw [List.dropWhile_cons] at h
    by_cases hp : p a = true
    · simp only [hp, if_true] at h
      exact List.mem_cons_of_mem a (ih h)
    · simp only [hp] at h
      simpa using h

theorem mem_of_mem_pyStrip {c : Char} {l : Str} (h : c ∈ pyStrip l) : c ∈ l := by
  unfold pyStrip at h
  rw [List.mem_reverse] at h
  have h2 := mem_of_mem_dropWhile h
  rw [List.mem_reverse] at h2
  exact mem_of_mem_dropWhile h2

/-- Characters surviving `money_core` come from the input and are none of
the characters the pipeline removes or rewrites (given a comma-free input,
whose absence rules out manufactured dots). -/
theorem mem_money_core {c : Char} {t : Str} (hnc : ',' ∉ t)
    (hc : c ∈ money_core t) :
    c ∈ t ∧ c ≠ ' ' ∧ c ≠ '\u00A0' ∧ c ≠ '.' ∧ c ≠ ',' ∧ c ≠ '#' := by
  unfold money_core at hc
  rw [List.mem_filter] at hc
  obtain ⟨hc4, hhash⟩ := hc
  have hch : c ≠ '#' := by simpa using hhash
  rw [List.mem_map] at hc4
  obtain ⟨b, hb3, hbe⟩ := hc4
  rw [List.mem_map] at hb3
  obtain ⟨a, ha2, hae⟩ := hb3
  rw [List.mem_filter] at ha2
  obtain ⟨ha1, hna⟩ := ha2
  rw [List.mem_filter] at ha1
  obtain ⟨hat, hsp⟩ := ha1
  have hasp : a ≠ ' ' := by simpa using hsp
  have hanb : a ≠ '\u00A0' := by simpa using hna
  have hacomma : a ≠ ',' := fun h => hnc (h ▸ hat)
  by_cases hadot : a = '.'
  · exfalso
    apply hch
    subst hadot
    simp only [beq_self_eq_true, if_true] at hae
    subst hae
    simpa using hbe.symm
  · have hba : b = a := by
      have : (a == '.') = false := by simpa using hadot
      rw [this] at hae
      simp at hae
      exact hae.symm
    subst hba
    have hca : c = b := by
      have : (b == ',') = false := by simpa using hacomma
      rw [this] at hbe
      simp at hbe
      exact hbe.symm
    subst hca
    exact ⟨hat, hasp, hanb, hadot, hacomma, hch⟩

/-- Characters surviving `money_to_csv` on a comma-free input. -/
theorem mem_money_to_csv {c : Char} {l : Str} (hnc : ',' ∉ l)
    (hc : c ∈ money_to_csv l) :
    c ∈ l ∧ c ≠ ' ' ∧ c ≠ '\u00A0' ∧ c ≠ '.' ∧ c ≠ ',' ∧ c ≠ '#' := by
  unfold money_to_csv at hc
  by_cases h : pyStrip l = []
  · rw [if_pos h] at hc; cases hc
  · rw [if_neg h] at hc
    have hnc' : ',' ∉ pyStrip l := fun hm => hnc (mem_of_mem_pyStrip hm)
    obtain ⟨hm, rest⟩ := mem_money_core hnc' hc
    exact ⟨mem_of_mem_pyStrip hm, rest⟩

/-- `money_core` fixes a string containing none of the characters it
touches. -/
theorem money_core_eq_self {t : Str}
    (h : ∀ c ∈ t, c ≠ ' ' ∧ c ≠ '\u00A0' ∧ c ≠ '.' ∧ c ≠ ',' ∧ c ≠ '#') :
    money_core t = t := by
  have e1 : t.filter (fun c => !(c == ' ')) = t :=
    filter_eq_self_of_all (fun c hc => by simpa using (h c hc).1)
  have e2 : t.filter (fun c => !(c == '\u00A0')) = t :=
    filter_eq_self_of_all (fun c hc => by simpa using (h c hc).2.1)
  have e3 : t.map (fun c => if c == '.' then '#' else c) = t :=
    map_eq_self_of_all (fun c hc => by
      have : (c == '.') = false := by simpa using (h c hc).2.2.1
      rw [this]
      simp)
  have e4 : t.map (fun c => if c == ',' then '.' else c) = t :=
    map_eq_self_of_all (fun c hc => by
      have : (c == ',') = false := by simpa using (h c hc).2.2.2.1
      rw [this]
      simp)
  have e5 : t.filter (fun c => !(c == '#')) = t :=
    filter_eq_self_of_all (fun c hc => by simpa using (h c hc).2.2.2.2)
  unfold money_core
  rw [e1, e2, e3, e4, e5]

/-- `money_to_csv` fixes a whitespace-free string containing none of the
characters its pipeline touches. -/
theorem money_to_csv_eq_self {t : Str}
    (h : ∀ c ∈ t, pyIsSpace c = false ∧ c ≠ ' ' ∧ c ≠ '\u00A0' ∧ c ≠ '.' ∧
      c ≠ ',' ∧ c ≠ '#') :
    money_to_csv t = t := by
  have hs : pyStrip t = t := pyStrip_eq_self_of_all (fun c hc => (h c hc).1)
  unfold money_to_csv
  rw [hs]
  by_cases ht : t = []
  · rw [if_pos ht, ht]
  · rw [if_neg ht]
    exact money_core_eq_self (fun c hc => (h c hc).2)

/-- A scrubbed cell contains no carriage return and no line feed. -/
theorem cleanCell_no_crlf (l : Str) : '\r' ∉ cleanCell l ∧ '\n' ∉ cleanCell l := by
  constructor <;> intro hmem
  · have h1 := mem_of_mem_pyStrip hmem
    rw [List.mem_map] at h1
    obtain ⟨b, hb, hbe⟩ := h1
    rw [List.mem_map] at hb
    obtain ⟨a, _, hae⟩ := hb
    by_cases hbn : b == '\n'
    · simp [hbn] at hbe
    · simp only [hbn, if_neg, Bool.false_eq_true, ite_false] at hbe
      subst hbe
      by_cases han : a == '\r' <;> simp_all
  · have h1 := mem_of_mem_pyStrip hmem
    rw [List.mem_map] at h1
    obtain ⟨b, hb, hbe⟩ := h1
    by_cases hbn : b == '\n' <;> simp_all

theorem mem_badFrom (colName : String) (colIdx : Nat) :
    ∀ (rows : List Rec) (start i : Nat), i < rows.length →
      pyStrip ((rows.getD i blankRec).getD colIdx []) ≠ [] →
      IBAN_REGEX (pyStrip ((rows.getD i blankRec).getD colIdx [])) = false →
      (start + i + 1, colName) ∈ badFrom start colName colIdx rows := by
  intro rows
  induction rows with
  | nil => intro start i h; simp at h
  | cons r rs ih =>
    intro start i hlen h1 h2
    cases i with
    | zero =>
      simp only [List.getD_cons_zero] at h1 h2
      unfold badFrom
      rw [if_pos ⟨h1, h2⟩]
      simp
    | succ j =>
      have hj : j < rs.length := by simpa using hlen
      have h1' : pyStrip ((rs.getD j blankRec).getD colIdx []) ≠ [] := by
        simpa using h1
      have h2' : IBAN_REGEX (pyStrip ((rs.getD j blankRec).getD colIdx [])) = false := by
        simpa using h2
      have hmem := ih (start + 1) j hj h1' h2'
      have harith : start + 1 + j + 1 = start + (j + 1) + 1 := by omega
      rw [harith] at hmem
      unfold badFrom
      exact List.mem_append_right _ hmem

theorem IBAN_REGEX_iff (l : Str) : IBAN_REGEX l = true ↔ specIbanShape l := by
  cases l with
  | nil =>
    simp only [IBAN_REGEX, specIbanShape]
    constructor
    · intro h; cases h
    · rintro ⟨c1, c2, rest, h, -⟩; cases h
  | cons a t =>
    cases t with
    | nil =>
      simp only [IBAN_REGEX, specIbanShape]
      constructor
      · intro h; cases h
      · rintro ⟨c1, c2, rest, h, -⟩; cases h
    | cons b rest =>
      simp only [IBAN_REGEX, specIbanShape, Bool.and_eq_true, Bool.or_eq_true,
        beq_iff_eq, decide_eq_true_eq, List.all_eq_true]
      constructor
      · rintro ⟨⟨⟨h1, h2⟩, h3⟩, h4⟩
        exact ⟨a, b, rest, rfl, h1, h2, h3, h4⟩
      · rintro ⟨c1, c2, rest', heq, h1, h2, h3, h4⟩
        obtain ⟨rfl, rfl, rfl⟩ : a = c1 ∧ b = c2 ∧ rest = rest' := by
          injection heq with ha htl
          injection htl with hb hr
          exact ⟨ha, hb, hr⟩
        exact ⟨⟨⟨h1, h2⟩, h3⟩, h4⟩

theorem lookup_map_mk {α : Type} (g : String → α) :
    ∀ (cs : List String) (c : String), c ∈ cs →
      (cs.map fun x => (x, g x)).lookup c = some (g c) := by
  intro cs
  induction cs with
  | nil => intro c h; cases h
  | cons a t ih =>
    intro c h
    by_cases hac : c = a
    · subst hac
      simp [List.lookup]
    · have hm : c ∈ t := by
        cases h with
        | head => exact absurd rfl hac
        | tail _ h => exact h
      have hba : (c == a) = false := beq_eq_false_iff_ne.mpr hac
      simp [List.lookup, hba, ih c hm]

theorem lookup_map_mk_none {α : Type} (g : String → α) :
    ∀ (cs : List String) (c : String), c ∉ cs →
      (cs.map fun x => (x, g x)).lookup c = none := by
  intro cs
  induction cs with
  | nil => intro c _; rfl
  | cons a t ih =>
    intro c h
    have hac : c ≠ a := fun hh => h (hh ▸ List.mem_cons_self a t)
    have hba : (c == a) = false := beq_eq_false_iff_ne.mpr hac
    simp [List.lookup, hba]
    intro b hb heq
    exact h (by rw [heq]; exact List.mem_cons_of_mem a hb)

/-! ## Claim theorems -/

/-- C3: `money_to_csv` maps `"1.234,56"` to `"1234.56"`, `"10,5"` to `"10.5"`,
the empty string to the empty string, and `"  7 "` to `"7"`. -/
theorem money_to_csv_examples :
    money_to_csv "1.234,56".toList = "1234.56".toList ∧
    money_to_csv "10,5".toList = "10.5".toList ∧
    money_to_csv "".toList = "".toList ∧
    money_to_csv "  7 ".toList = "7".toList := by
  refine ⟨?_, ?_, ?_, ?_⟩ <;> decide

/-- C2 counterexample: `money_to_csv` is not idempotent.  On the spec's own
example input `"1.234,56"` the first application yields the canonical
`"1234.56"`, and a second application strips the dot again, yielding
`"123456"`. -/
theorem money_to_csv_not_idempotent :
    money_to_csv (money_to_csv "1.234,56".toList) ≠ money_to_csv "1.234,56".toList := by
  decide

/-- C2 (amended): `money_to_csv` is idempotent on every input containing no
comma and no whitespace other than spaces and no-break spaces; it is not
idempotent on inputs with a comma (whose comma becomes a dot the second
pass deletes), so not on canonical locale inputs. -/
theorem money_to_csv_idempotent (l : Str) (hnc : ',' ∉ l)
    (hw : ∀ c ∈ l, pyIsSpace c = true → c = ' ' ∨ c = '\u00A0') :
    money_to_csv (money_to_csv l) = money_to_csv l := by
  apply money_to_csv_eq_self
  intro c hc
  obtain ⟨hmem, h1, h2, h3, h4, h5⟩ := mem_money_to_csv hnc hc
  have hsp : pyIsSpace c = false := by
    cases hps : pyIsSpace c with
    | false => rfl
    | true =>
      rcases hw c hmem hps with h | h
      · exact absurd h h1
      · exact absurd h h2
  exact ⟨hsp, h1, h2, h3, h4, h5⟩

/-- Witness for the amended C2 at the comma-free input `"1.234"`. -/
theorem money_to_csv_idempotent_witness :
    (',' ∉ "1.234".toList ∧
      ∀ c ∈ "1.234".toList, pyIsSpace c = true → c = ' ' ∨ c = '\u00A0') ∧
    money_to_csv (money_to_csv "1.234".toList) = money_to_csv "1.234".toList :=
  ⟨⟨by decide, by decide⟩,
   money_to_csv_idempotent "1.234".toList (by decide) (by decide)⟩

/-- C8: deleting at an out-of-range position (negative or ≥ size) leaves the
record sequence unchanged and returns `false`. -/
theorem removeRows_out_of_range (rows : List Rec) (position : Int) (count : Nat)
    (h : position < 0 ∨ (rows.length : Int) ≤ position) :
    removeRows rows position count = (rows, false) := by
  simp only [removeRows, if_pos h]

/-- Witness for C8 at a concrete store of one record and position 5. -/
theorem removeRows_out_of_range_witness :
    ((5 : Int) < 0 ∨ (([blankRec] : List Rec).length : Int) ≤ 5) ∧
    removeRows [blankRec] 5 1 = ([blankRec], false) :=
  ⟨by decide, removeRows_out_of_range [blankRec] 5 1 (by decide)⟩

/-- C10: deleting at a valid position succeeds (returns `true`) for every
`count ≥ 1`, even when `position + count` exceeds the size: exactly the
records of the index slice are removed, that is `min count (size - position)`
of them, and the remaining records keep their relative order. -/
theorem removeRows_valid (rows : List Rec) (position : Int) (count : Nat)
    (h0 : 0 ≤ position) (h1 : position < (rows.length : Int)) (hc : 1 ≤ count) :
    (removeRows rows position count).2 = true ∧
    (removeRows rows position count).1 =
      rows.take position.toNat ++ rows.drop (position.toNat + count) ∧
    (removeRows rows position count).1.length =
      rows.length - min count (rows.length - position.toNat) := by
  have hnot : ¬(position < 0 ∨ (rows.length : Int) ≤ position) := by omega
  have hp : position.toNat < rows.length := by omega
  refine ⟨?_, ?_, ?_⟩
  · simp only [removeRows, if_neg hnot]
  · simp only [removeRows, if_neg hnot]
  · simp only [removeRows, if_neg hnot, List.length_append, List.length_take,
      List.length_drop]
    omega

/-- Witness for C10: store of two records, position 1, count 5 overshooting
the end; one record is removed and the first is kept. -/
theorem removeRows_valid_witness :
    ((0 : Int) ≤ 1 ∧ (1 : Int) < (([blankRec, blankRec] : List Rec).length : Int) ∧ 1 ≤ 5) ∧
    (removeRows [blankRec, blankRec] 1 5).2 = true ∧
    (removeRows [blankRec, blankRec] 1 5).1 =
      ([blankRec, blankRec] : List Rec).take 1 ++ ([blankRec, blankRec] : List Rec).drop 6 ∧
    (removeRows [blankRec, blankRec] 1 5).1.length = 2 - min 5 (2 - 1) :=
  ⟨⟨by decide, by decide, by decide⟩,
   removeRows_valid [blankRec, blankRec] 1 5 (by decide) (by decide) (by decide)⟩

/-- C1 (code evaluation at the failing input): inserting after a record whose
purchase-order field reads `"5"` stores `"5"` again in the new record — the
predecessor's value unchanged, not the incremented `"6"` the spec (and the
source's own `# PO_No. auto-increment` comment) describe. -/
theorem add_row_copies_po_uninc :
    ((add_row [blankRec.set 0 "5".toList] 1).getD 1 blankRec).getD 0 [] = "5".toList ∧
    "5".toList ≠ "6".toList := by
  refine ⟨?_, by decide⟩
  decide

/-- C5: a successfully imported file yields exactly the 14 canonical schema
columns in canonical order; a schema column missing from the source is
synthesized with empty text in every row, and a source column outside the
schema does not appear in the result. -/
theorem load_data_schema (src : Frame) (nrows : Nat) :
    COLUMNS.length = 14 ∧
    (load_data src nrows).map Prod.fst = COLUMNS ∧
    (∀ c, c ∈ COLUMNS → src.lookup c = none →
      (load_data src nrows).lookup c = some (List.replicate nrows "")) ∧
    (∀ c, c ∉ COLUMNS → (load_data src nrows).lookup c = none) := by
  refine ⟨by decide, ?_, ?_, ?_⟩
  · have hid : (Prod.fst ∘ fun c : String => (c, importCol src nrows c)) = id := rfl
    simp only [load_data, List.map_map, hid, List.map_id]
  · intro c hc hnone
    have h := lookup_map_mk (importCol src nrows) COLUMNS c hc
    rw [importCol, hnone] at h
    exact h
  · intro c hc
    exact lookup_map_mk_none _ COLUMNS c hc

/-- Witness for C5 on a concrete source holding one extra column and the
`Amount` column with one missing cell. -/
theorem load_data_schema_witness :
    (("PO_No." : String) ∈ COLUMNS ∧
      ([("Extra", [some "x"]), ("Amount", [none])] : Frame).lookup "PO_No." = none ∧
      ("Extra" : String) ∉ COLUMNS) ∧
    (load_data [("Extra", [some "x"]), ("Amount", [none])] 1).lookup "PO_No." =
      some (List.replicate 1 "") ∧
    (load_data [("Extra", [some "x"]), ("Amount", [none])] 1).lookup "Extra" = none :=
  ⟨⟨by decide, by decide, by decide⟩,
   (load_data_schema [("Extra", [some "x"]), ("Amount", [none])] 1).2.2.1
     "PO_No." (by decide) (by decide),
   (load_data_schema [("Extra", [some "x"]), ("Amount", [none])] 1).2.2.2
     "Extra" (by decide)⟩

/-- C7: every cell of every exported record is free of embedded CR and LF
characters (each was replaced by a space and the cell trimmed). -/
theorem export_no_crlf (rows : List Rec) (r : Rec) (c : Str)
    (hr : r ∈ export_normalize rows) (hc : c ∈ r) :
    '\r' ∉ c ∧ '\n' ∉ c := by
  unfold export_normalize at hr
  rw [List.mem_map] at hr
  obtain ⟨r1, _, hr1e⟩ := hr
  subst hr1e
  rw [List.mem_map] at hc
  obtain ⟨c1, _, hc1e⟩ := hc
  subst hc1e
  exact cleanCell_no_crlf c1

/-- Witness for C7: a record whose payee-name cell holds an embedded line
feed exports with that cell read `"a b"`. -/
theorem export_no_crlf_witness :
    ((blankRec.set 4 "a b".toList : Rec) ∈
        export_normalize [blankRec.set 4 "a\nb".toList] ∧
      "a b".toList ∈ (blankRec.set 4 "a b".toList : Rec)) ∧
    '\r' ∉ "a b".toList ∧ '\n' ∉ "a b".toList :=
  ⟨⟨by decide, by decide⟩,
   export_no_crlf [blankRec.set 4 "a\nb".toList] (blankRec.set 4 "a b".toList)
     "a b".toList (by decide) (by decide)⟩

/-- C4: when the write of the CSV data to the temporary sibling file raises,
`export_csv` reports failure and the destination file keeps exactly its
previous contents (it is never touched on that path). -/
theorem export_csv_write_error_keeps_dest (fs : FS) (rows : List Rec)
    (header : Bool) (eol : Str) (bom : Bool) (leftoverTmp : Option Str) :
    (export_csv fs rows header eol bom .err leftoverTmp).1.dest = fs.dest ∧
    (export_csv fs rows header eol bom .err leftoverTmp).2.1 = false := by
  constructor <;> rfl

/-- C6: the IBAN-shape check accepts exactly the values of the spec's shape
(`"RO"` case-insensitively, then at least two alphanumerics); it accepts
`"RO49AAAA1234567890123456"` and rejects `"FR1420041010050500013M02606"`;
every value that is non-empty after stripping and fails the check is
collected as a `(row, field)` warning for both account-identifier columns;
and the export proceeds to write the output file regardless of warnings. -/
theorem iban_check_spec :
    (∀ l, IBAN_REGEX l = true ↔ specIbanShape l) ∧
    IBAN_REGEX "RO49AAAA1234567890123456".toList = true ∧
    IBAN_REGEX "FR1420041010050500013M02606".toList = false ∧
    (∀ (rows : List Rec) (i : Nat), i < rows.length →
      pyStrip ((rows.getD i blankRec).getD 3 []) ≠ [] →
      IBAN_REGEX (pyStrip ((rows.getD i blankRec).getD 3 [])) = false →
      (i + 1, "Payer Account IBAN") ∈ collect_bad rows) ∧
    (∀ (rows : List Rec) (i : Nat), i < rows.length →
      pyStrip ((rows.getD i blankRec).getD 8 []) ≠ [] →
      IBAN_REGEX (pyStrip ((rows.getD i blankRec).getD 8 [])) = false →
      (i + 1, "Payee Account IBAN") ∈ collect_bad rows) ∧
    (∀ (fs : FS) (rows : List Rec) (header : Bool) (eol : Str) (bom : Bool)
        (leftoverTmp : Option Str),
      (export_csv fs rows header eol bom .ok leftoverTmp).2.1 = true ∧
      (export_csv fs rows header eol bom .ok leftoverTmp).1.dest =
        some (csvContent (export_normalize rows) header eol bom)) := by
  refine ⟨IBAN_REGEX_iff, by decide, by decide, ?_, ?_, ?_⟩
  · intro rows i hlen h1 h2
    have h := mem_badFrom "Payer Account IBAN" 3 rows 0 i hlen h1 h2
    rw [Nat.zero_add] at h
    exact List.mem_append_left _ h
  · intro rows i hlen h1 h2
    have h := mem_badFrom "Payee Account IBAN" 8 rows 0 i hlen h1 h2
    rw [Nat.zero_add] at h
    exact List.mem_append_right _ h
  · intro fs rows header eol bom leftoverTmp
    constructor
    · rfl
    · show (export_write fs _ .ok leftoverTmp).1.dest = _
      unfold export_write
      by_cases hd : fs.dest.isSome <;> simp [hd]

/-- Witness for C6: a store of one record whose payer-account cell holds the
French IBAN; the warning `(1, "Payer Account IBAN")` is collected. -/
theorem iban_check_spec_witness :
    ((1 : Nat) ≤ ([blankRec.set 3 "FR1420041010050500013M02606".toList] : List Rec).length ∧
      pyStrip ((([blankRec.set 3 "FR1420041010050500013M02606".toList] : List Rec).getD 0
        blankRec).getD 3 []) ≠ []) ∧
    (1, "Payer Account IBAN") ∈
      collect_bad [blankRec.set 3 "FR1420041010050500013M02606".toList] :=
  ⟨⟨by decide, by decide⟩,
   iban_check_spec.2.2.2.1 [blankRec.set 3 "FR1420041010050500013M02606".toList] 0
     (by decide) (by decide) (by decide)⟩

/-- C9: the running total parses each amount with the export normalization
`money_to_csv`; an amount whose normalized form fails to parse contributes
nothing and raises no error, and the amounts `["10,00", "abc", "5,50"]`
total `15.50`. -/
theorem update_total_spec :
    update_total ["10,00".toList, "abc".toList, "5,50".toList] = 31 / 2 ∧
    (∀ x, amountTerm x = 0 ∨ ∃ q, pyFloat (money_to_csv x) = some q ∧ amountTerm x = q) ∧
    (∀ (x : Str) (rest : List Str), pyFloat (money_to_csv x) = none →
      update_total (x :: rest) = update_total rest) := by
  have h1 : amountTerm "10,00".toList = 10 := by decide
  have h2 : amountTerm "abc".toList = 0 := by decide
  have h3 : amountTerm "5,50".toList = mkRat 11 2 := by decide
  have h3q : (mkRat 11 2 : ℚ) = 11 / 2 := by
    rw [Rat.mkRat_eq_div]
    norm_num
  refine ⟨?_, ?_, ?_⟩
  · show ((0 + amountTerm "10,00".toList) + amountTerm "abc".toList) +
      amountTerm "5,50".toList = 31 / 2
    rw [h1, h2, h3, h3q]
    norm_num
  · intro x
    unfold amountTerm
    by_cases h : pyStrip x = []
    · exact Or.inl (by rw [if_pos h])
    · rw [if_neg h]
      cases hq : pyFloat (money_to_csv x) with
      | none => exact Or.inl rfl
      | some q => exact Or.inr ⟨q, rfl, rfl⟩
  · intro x rest hnone
    have hterm : amountTerm x = 0 := by
      unfold amountTerm
      by_cases h : pyStrip x = []
      · rw [if_pos h]
      · rw [if_neg h, hnone]
    show List.foldl (fun s x => s + amountTerm x) (0 + amountTerm x) rest = _
    rw [hterm, add_zero]
    rfl

/-- Witness for C9 at the unparsable amount `"abc"`. -/
theorem update_total_spec_witness :
    pyFloat (money_to_csv "abc".toList) = none ∧
    update_total ["abc".toList] = update_total [] :=
  ⟨by decide, update_total_spec.2.2 "abc".toList [] (by decide)⟩

end CsvExporter
